import Mathlib

/-!
Verification of the photo-gallery repository.

This file gives a shallow embedding of the code that the claims are about:

* the query-cache persistence layer of `src/frontend/src/utils/logger.js`
  (`serialize`, `deserialize`, `shouldPersistQuery`, `saveToStorage`,
  `loadFromStorage`, `cleanupLargeCache`, `cleanupStorage`, `throttledSave`,
  `initializePersistence`),
* the masonry layout of `src/frontend/src/components/PhotoGallery.js`
  (`createOrderedMasonryColumns`),
* the service-worker fetch handler of `src/frontend/public/sw.js`,
* the API layer (`fetchPhotoInfo`).

JavaScript values that flow through these functions are modelled by an
inductive `Json` type; machine numbers that are used as timestamps and
counters are modelled by `Int` (they are exact integers far below 2^53 in
the code, so JS float arithmetic on them is exact).  `JSON.parse` of a
stored query key is modelled by an abstract partial function
`String → Option Json` (`none` = the parse throws); `deserializeE` and
`initializePersistence` propagate that throw as `.error`, exactly as the
code lets it escape.  The total restriction `deserialize` describes the
code on inputs whose keys all parse — in particular on every snapshot
produced by `serialize`, whose keys are `JSON.stringify` outputs.
-/

namespace Gallery

/-- Model of a JavaScript/JSON value. -/
inductive Json where
  | null : Json
  | bool : Bool → Json
  | num : Int → Json
  | str : String → Json
  | arr : List Json → Json
  | obj : List (String × Json) → Json

/-- One hex digit, lower case, as produced by JSON string escapes. -/
def hexDigit (n : Nat) : String :=
  (["0", "1", "2", "3", "4", "5", "6", "7", "8", "9",
    "a", "b", "c", "d", "e", "f"]).getD n "0"

/-- Escape of a single character inside a JSON string literal
(as `JSON.stringify` does). -/
def jsonEscapeChar (c : Char) : String :=
  if c = '"' then "\\\""
  else if c = '\\' then "\\\\"
  else if c = '\n' then "\\n"
  else if c = '\t' then "\\t"
  else if c = '\r' then "\\r"
  else if c = '\x08' then "\\b"
  else if c = '\x0c' then "\\f"
  else if c.toNat < 32 then "\\u00" ++ hexDigit (c.toNat / 16) ++ hexDigit (c.toNat % 16)
  else String.singleton c

/-- Escape of a whole JSON string body. -/
def jsonEscape (s : String) : String :=
  String.join (s.toList.map jsonEscapeChar)

mutual

/-- Model of `JSON.stringify` on the `Json` type. -/
def Json.stringify : Json → String
  | .null => "null"
  | .bool b => cond b "true" "false"
  | .num n => toString n
  | .str s => "\"" ++ jsonEscape s ++ "\""
  | .arr xs => "[" ++ stringifyElems xs ++ "]"
  | .obj kvs => "\x7b" ++ stringifyMembers kvs ++ "\x7d"

/-- Comma-separated stringification of the elements of a JSON array. -/
def stringifyElems : List Json → String
  | [] => ""
  | [x] => Json.stringify x
  | x :: y :: xs => Json.stringify x ++ "," ++ stringifyElems (y :: xs)

/-- Comma-separated stringification of the members of a JSON object. -/
def stringifyMembers : List (String × Json) → String
  | [] => ""
  | [(k, v)] => "\"" ++ jsonEscape k ++ "\":" ++ Json.stringify v
  | (k, v) :: kv :: kvs =>
      "\"" ++ jsonEscape k ++ "\":" ++ Json.stringify v ++ "," ++
        stringifyMembers (kv :: kvs)

end

/-- JavaScript truthiness of a JSON value (`state.data` is used as a
boolean in `serialize`). -/
def Json.truthy : Json → Bool
  | .null => false
  | .bool b => b
  | .num n => n != 0
  | .str s => s != ""
  | .arr _ => true
  | .obj _ => true

/-! ## Query-cache persistence layer (`src/frontend/src/utils/logger.js`) -/

/-- The state of a react-query query, restricted to the fields the
persistence layer reads and writes.  The same record shape is stored in a
snapshot (`serialize` copies exactly these fields, resetting
`fetchStatus` to `"idle"`). -/
structure QueryState where
  data : Json
  dataUpdateCount : Int
  dataUpdatedAt : Int
  errorUpdateCount : Int
  errorUpdatedAt : Int
  fetchFailureCount : Int
  isInvalidated : Bool
  status : String
  fetchStatus : String

/-- A query of the query cache: its key and its state. -/
structure Query where
  queryKey : Json
  state : QueryState

/-- The query client, reduced to what `serialize` reads from it:
`client.getQueryCache().getAll()`. -/
structure QueryClient where
  queries : List Query

/-- The snapshot format written to local storage:
`{ version, timestamp, queries }` where `queries` is an object keyed by
`JSON.stringify(queryKey)` (modelled as an association list in key
insertion order). -/
structure Snapshot where
  version : String
  timestamp : Int
  queries : List (String × QueryState)

/-- One element of the list returned by `deserialize`. -/
structure DehydratedQuery where
  queryKey : Json
  queryHash : String
  state : QueryState

def CACHE_KEY : String := "photo-gallery-cache"

def CACHE_VERSION : String := "1.0.0"

/-- The 50MB limit. -/
def MAX_CACHE_SIZE : Nat := 50 * 1024 * 1024

/-- The expiry: 24 hours in milliseconds. -/
def CACHE_EXPIRY : Int := 24 * 60 * 60 * 1000

/-- JavaScript object member assignment `acc[key] = value` on the
association-list model of an object: replace the binding if the key is
present, otherwise append it. -/
def objSet {α : Type} (acc : List (String × α)) (k : String) (v : α) :
    List (String × α) :=
  if acc.any (fun kv => kv.1 == k) then
    acc.map (fun kv => if kv.1 == k then (k, v) else kv)
  else acc ++ [(k, v)]

/-- Query types that `shouldPersistQuery` persists. -/
def persistableQueries : List String := ["photos", "photoInfo", "slideshowPhotos"]

/-- Query types that `shouldPersistQuery` refuses to persist. -/
def nonPersistableQueries : List String := ["prefetchedImage", "realtime", "user"]

/-- Translation of `shouldPersistQuery` from the source: destructure the first element of
the query key and check it against the two lists.  A key that is not an
array with a string head makes both `includes` checks fail, hence
`false`. -/
def shouldPersistQuery (queryKey : Json) : Bool :=
  match queryKey with
  | .arr (.str t :: _) =>
      if nonPersistableQueries.contains t then false
      else persistableQueries.contains t
  | _ => false

/-- The record stored for one query by `serialize`: the same fields with
`fetchStatus` reset to `"idle"`. -/
def persistState (s : QueryState) : QueryState :=
  { s with fetchStatus := "idle" }

/-- Translation of `serialize` from the source: reduce over all queries of the cache,
storing `persistState` under `JSON.stringify(queryKey)` for every
successful query with truthy data whose key passes `shouldPersistQuery`;
stamp the snapshot with the cache version and `Date.now()` (`now`). -/
def serialize (now : Int) (client : QueryClient) : Snapshot :=
  { version := CACHE_VERSION
    timestamp := now
    queries := client.queries.foldl (fun acc query =>
      if query.state.status == "success" && Json.truthy query.state.data then
        if shouldPersistQuery query.queryKey then
          objSet acc (Json.stringify query.queryKey) (persistState query.state)
        else acc
      else acc) [] }

/-- The persistence condition of `serialize`, as one predicate:
status `success`, truthy data, persistable key type. -/
def persistPred (q : Query) : Bool :=
  q.state.status == "success" && Json.truthy q.state.data
    && shouldPersistQuery q.queryKey

/-- The `Object.entries(cached.queries).map(...)` step of `deserialize`:
`JSON.parse` each stored key in order.  `parse` models `JSON.parse`
(`none` = it throws); the first key that fails to parse makes the whole
map throw, before any later entry is touched. -/
def parseKeysE (parse : String → Option Json) :
    List (String × QueryState) → Except Unit (List DehydratedQuery)
  | [] => .ok []
  | kv :: rest =>
    match parse kv.1 with
    | none => .error ()
    | some j =>
      match parseKeysE parse rest with
      | .error e => .error e
      | .ok l => .ok (⟨j, kv.1, kv.2⟩ :: l)

/-- Translation of `deserialize` from the source, throw path included.
`parse` models `JSON.parse` on the stored keys (`none` = it throws);
`now` models `Date.now()`.  The result is `.ok none` (`undefined`) for a
missing snapshot, a version mismatch or an expired snapshot; `.ok (some
queries)` otherwise when every key parses; and `.error` when a key makes
`JSON.parse` throw — the code does not catch that exception (the repo's
own test `should handle malformed query keys` asserts it). -/
def deserializeE (parse : String → Option Json) (now : Int)
    (cached : Option Snapshot) : Except Unit (Option (List DehydratedQuery)) :=
  match cached with
  | none => .ok none
  | some c =>
    if c.version ≠ CACHE_VERSION then .ok none
    else if now - c.timestamp > CACHE_EXPIRY then .ok none
    else
      match parseKeysE parse c.queries with
      | .error e => .error e
      | .ok l => .ok (some l)

/-- The total restriction of `deserializeE`: `deserialize` on a snapshot
all of whose stored keys parse (`parse` is then the total `JSON.parse`).
Every snapshot written by `serialize` is of this kind, its keys being
`JSON.stringify` outputs; `deserializeE_eq_total` ties the two models
together.  Returns `none` for a missing snapshot, a version mismatch or
an expired snapshot, and otherwise the list of dehydrated queries (the
`queries` field of the returned object). -/
def deserialize (parse : String → Json) (now : Int) (cached : Option Snapshot) :
    Option (List DehydratedQuery) :=
  match cached with
  | none => none
  | some c =>
    if c.version ≠ CACHE_VERSION then none
    else if now - c.timestamp > CACHE_EXPIRY then none
    else some (c.queries.map (fun kv => ⟨parse kv.1, kv.1, kv.2⟩))

/-- The browser `localStorage`, modelled as an association list of
string keys and string values. -/
abbrev Storage : Type := List (String × String)

/-- Character-list test: `pat` is an initial run of `s`. -/
def leadMatch : List Char → List Char → Bool
  | _, [] => true
  | [], _ :: _ => false
  | a :: as, b :: bs => a == b && leadMatch as bs

/-- JavaScript `key.startsWith(pat)` on the model. -/
def strStartsWith (s pat : String) : Bool :=
  leadMatch s.toList pat.toList

/-- JSON encoding of one stored query state, fields in the order the
source object literal writes them. -/
def stateToJson (s : QueryState) : Json :=
  .obj [("data", s.data),
        ("dataUpdateCount", .num s.dataUpdateCount),
        ("dataUpdatedAt", .num s.dataUpdatedAt),
        ("errorUpdateCount", .num s.errorUpdateCount),
        ("errorUpdatedAt", .num s.errorUpdatedAt),
        ("fetchFailureCount", .num s.fetchFailureCount),
        ("isInvalidated", .bool s.isInvalidated),
        ("status", .str s.status),
        ("fetchStatus", .str s.fetchStatus)]

/-- JSON encoding of a whole snapshot, as passed to `JSON.stringify` by
`saveToStorage`. -/
def snapshotToJson (s : Snapshot) : Json :=
  .obj [("version", .str s.version),
        ("timestamp", .num s.timestamp),
        ("queries", .obj (s.queries.map (fun kv => (kv.1, stateToJson kv.2))))]

/-- The JSON string `saveToStorage` computes for a snapshot. -/
def snapshotString (s : Snapshot) : String :=
  (snapshotToJson s).stringify

/-- Model of `localStorage.setItem`, which can throw (quota exceeded); whether the
call throws is an input of the model (`fail`). -/
def setItemE (fail : Bool) (st : Storage) (k v : String) : Except Unit Storage :=
  if fail then .error () else .ok (objSet st k v)

/-- Translation of `cleanupStorage` from the source: remove every key that starts with
`photo-gallery-cache-old-`, keep everything else. -/
def cleanupStorage (st : Storage) : Storage :=
  st.filter (fun kv => !(strStartsWith kv.1 "photo-gallery-cache-old-"))

/-- Translation of `cleanupLargeCache` from the source: sort the query entries by
`dataUpdatedAt`, most recent first, keep the first
`Math.floor(length * 0.5)` of them, and rebuild the queries object. -/
def cleanupLargeCache (data : Snapshot) : Snapshot :=
  let queries := data.queries
  let sorted := queries.mergeSort
    (fun a b => b.2.dataUpdatedAt ≤ a.2.dataUpdatedAt)
  let keepCount := queries.length / 2
  let cleanedQueries := (sorted.take keepCount).foldl
    (fun acc kv => objSet acc kv.1 kv.2) []
  { data with queries := cleanedQueries }

/-- Translation of `saveToStorage` from the source.  `fail1` says whether the first
`localStorage.setItem` throws, `fail2` whether the retry after
`cleanupStorage` throws.  Every path ends in `.ok`: the catch blocks only
log, they never rethrow. -/
def saveToStorage (fail1 fail2 : Bool) (storage : Storage) (data : Snapshot) :
    Except Unit Storage :=
  let serialized := snapshotString data
  let attempt1 : Except Unit Storage :=
    if serialized.length > MAX_CACHE_SIZE then
      setItemE fail1 storage CACHE_KEY (snapshotString (cleanupLargeCache data))
    else
      setItemE fail1 storage CACHE_KEY serialized
  match attempt1 with
  | .ok st => .ok st
  | .error _ =>
    match setItemE fail2 (cleanupStorage storage) CACHE_KEY serialized with
    | .ok st => .ok st
    | .error _ => .ok (cleanupStorage storage)

/-- Model of `localStorage.getItem`. -/
def getItem (st : Storage) (k : String) : Option String :=
  (st.find? (fun kv => kv.1 == k)).map (fun kv => kv.2)

/-- Translation of `loadFromStorage` from the source.  `parseSnap` models `JSON.parse`
of the stored string: `none` when it throws, in which case the corrupted
entry is removed.  Returns the loaded snapshot and the storage after the
call. -/
def loadFromStorage (parseSnap : String → Option Snapshot) (storage : Storage) :
    Option Snapshot × Storage :=
  match getItem storage CACHE_KEY with
  | none => (none, storage)
  | some s =>
    match parseSnap s with
    | some snap => (some snap, storage)
    | none => (none, storage.filter (fun kv => kv.1 != CACHE_KEY))

/-- One `queryClient.setQueryData(queryKey, data, { updatedAt })` call
made while rehydrating. -/
structure HydrationCall where
  queryKey : Json
  data : Json
  updatedAt : Int

/-- Observable outcome of a normal return of `initializePersistence`:
the `setQueryData` calls it made, and the fact that its return statement
hands back a cleanup closure. -/
structure InitResult where
  hydrationCalls : List HydrationCall
  returnsCleanup : Bool

/-- Translation of `initializePersistence` from the source: load the
stored value, deserialize it, and on success hydrate every stored query
with `setQueryData`, then return the cleanup closure.  The `deserialize`
call sits outside any try/catch, so when it throws (malformed stored
key) the exception escapes and the function returns nothing: that path
is `.error`, with no `InitResult` and hence no cleanup function. -/
def initializePersistence (parse : String → Option Json)
    (parseSnap : String → Option Snapshot) (now : Int) (storage : Storage) :
    Except Unit InitResult :=
  match (loadFromStorage parseSnap storage).1 with
  | none => .ok { hydrationCalls := [], returnsCleanup := true }
  | some c =>
    match deserializeE parse now (some c) with
    | .error e => .error e
    | .ok none => .ok { hydrationCalls := [], returnsCleanup := true }
    | .ok (some entries) =>
      .ok { hydrationCalls :=
              entries.map (fun e => ⟨e.queryKey, e.state.data, e.state.dataUpdatedAt⟩)
            returnsCleanup := true }

/-! ## Debounced writes (`throttledSave`)

The timer machinery is modelled by a state with the currently pending
`setTimeout` fire time and the log of executed timer callbacks; each
executed callback is `serialize` at the fire time followed by
`saveToStorage` of the result, so the log records the fire time and the
snapshot that is saved. -/

/-- Pending debounce timer and the log of executed saves. -/
structure TimerState where
  pending : Option Int
  saves : List (Int × Snapshot)

/-- Translation of `throttledSave` from the source: `clearTimeout` of the pending timer
(drop it) and `setTimeout` of a new one 1000 ms from now.  No save
happens synchronously. -/
def throttledSave (now : Int) (s : TimerState) : TimerState :=
  { pending := some (now + 1000), saves := s.saves }

/-- Advance time to `t`: a pending timer whose fire time has been reached
fires, executing `serialize` followed by `saveToStorage`. -/
def fireDue (client : QueryClient) (t : Int) (s : TimerState) : TimerState :=
  match s.pending with
  | some tf =>
    if tf ≤ t then
      { pending := none, saves := s.saves ++ [(tf, serialize tf client)] }
    else s
  | none => s

/-- Run a sequence of `throttledSave(client)` calls at the given times:
before each call, time advances to the call time (firing a due timer),
then the call runs. -/
def runThrottledCalls (client : QueryClient) (times : List Int)
    (s : TimerState) : TimerState :=
  times.foldl (fun st t => throttledSave t (fireDue client t st)) s

/-- Let all remaining time pass: a still-pending timer fires. -/
def flushTimers (client : QueryClient) (s : TimerState) : TimerState :=
  match s.pending with
  | some tf => { pending := none, saves := s.saves ++ [(tf, serialize tf client)] }
  | none => s

/-- Full run of a burst of `throttledSave` calls from an idle timer
state, then waiting for the pending timer. -/
def debounceRun (client : QueryClient) (times : List Int) : TimerState :=
  flushTimers client (runThrottledCalls client times { pending := none, saves := [] })

/-! ## Masonry layout (`src/frontend/src/components/PhotoGallery.js`) -/

/-- A photo as used by the gallery component. -/
structure Photo where
  id : Int
  width : Int
  height : Int
  author : String
  download_url : String
deriving DecidableEq

/-- The `validPhotos` local of `createOrderedMasonryColumns`:
`allPhotos.filter(photo => !invalidPhotos.has(photo.id))` (the
`invalidPhotos` set is modelled as a list of ids). -/
def validPhotosOf (allPhotos : List Photo) (invalidPhotos : List Int) : List Photo :=
  allPhotos.filter (fun photo => !(invalidPhotos.contains photo.id))

/-- One step of the layout loop: `columns[index % columnCount].push(photo)`. -/
def masonryStep (columnCount : Nat) (columns : List (List Photo))
    (ip : Nat × Photo) : List (List Photo) :=
  columns.set (ip.1 % columnCount) ((columns.getD (ip.1 % columnCount) []) ++ [ip.2])

/-- Translation of `createOrderedMasonryColumns` from the source: start from
`columnCount` empty columns and push the photo at index `i` of the valid
list into column `i % columnCount`. -/
def createOrderedMasonryColumns (allPhotos : List Photo)
    (invalidPhotos : List Int) (columnCount : Nat) : List (List Photo) :=
  (validPhotosOf allPhotos invalidPhotos).enum.foldl
    (masonryStep columnCount) (List.replicate columnCount [])

/-! ## Service-worker fetch handler (`src/frontend/public/sw.js`) -/

/-- A response, reduced to what the handler inspects and what makes two
responses distinguishable. -/
structure SWResponse where
  status : Nat
  body : String
deriving DecidableEq

/-- Character-list substring test used to model
`event.request.url.includes('picsum.photos')`. -/
def containsSub : List Char → List Char → Bool
  | [], pat => leadMatch [] pat
  | a :: as, pat => leadMatch (a :: as) pat || containsSub as pat

/-- JavaScript `s.includes(pat)` on the model. -/
def strIncludes (s pat : String) : Bool :=
  containsSub s.toList pat.toList

/-- Model of `cache.match(request)`: requests are matched by URL. -/
def cacheMatch (cache : List (String × SWResponse)) (url : String) :
    Option SWResponse :=
  (cache.find? (fun kv => kv.1 == url)).map (fun kv => kv.2)

/-- Model of `cache.put(request, response.clone())`. -/
def cachePut (cache : List (String × SWResponse)) (url : String)
    (resp : SWResponse) : List (String × SWResponse) :=
  objSet cache url resp

/-- The `fetch` event listener of `sw.js`.  `net` is the outcome of the
network `fetch` for the request.  The result is `none` when the handler
does not call `event.respondWith` (URL without `picsum.photos`), and
otherwise the response the page receives together with the cache after
the event. -/
def handleFetch (cache : List (String × SWResponse)) (url : String)
    (net : Except Unit SWResponse) :
    Option (Except Unit SWResponse × List (String × SWResponse)) :=
  if strIncludes url "picsum.photos" then
    some (match cacheMatch cache url with
      | some response => (.ok response, cache)
      | none =>
        match net with
        | .ok fetchResponse =>
          (.ok fetchResponse,
            if fetchResponse.status = 200 then cachePut cache url fetchResponse
            else cache)
        | .error e => (.error e, cache))
  else none

/-! ## API layer (`fetchPhotoInfo`) -/

/-- An HTTP response as `fetchPhotoInfo` sees it: the `ok` flag and the
outcome of `response.json()` (which can throw). -/
structure ApiResponse where
  ok : Bool
  body : Except Unit Json

def API_BASE_URL : String := "https://picsum.photos"

/-- The fallback object literal of `fetchPhotoInfo` (it appears verbatim
in both the `!response.ok` branch and the catch block). -/
def fallbackPhotoInfo (photoId : Nat) : Json :=
  .obj [("id", .num photoId),
        ("author", .str ("Photographer " ++ toString photoId)),
        ("width", .num 3000),
        ("height", .num 2000),
        ("url", .str (API_BASE_URL ++ "/id/" ++ toString photoId)),
        ("download_url", .str (API_BASE_URL ++ "/id/" ++ toString photoId ++ "/3000/2000"))]

/-- Translation of `fetchPhotoInfo` from the source.  `outcome` is the result of the
`fetch` call (`.error` when it rejects).  The try block returns the
fallback for a non-ok response and otherwise the parsed body; the catch
block turns every thrown error into the fallback. -/
def fetchPhotoInfo (photoId : Nat) (outcome : Except Unit ApiResponse) :
    Except Unit Json :=
  let tryBlock : Except Unit Json := do
    let response ← outcome
    if !response.ok then
      pure (fallbackPhotoInfo photoId)
    else
      response.body
  match tryBlock with
  | .ok j => .ok j
  | .error _ => .ok (fallbackPhotoInfo photoId)

/-! ## Concrete fixtures used to instantiate theorems with hypotheses -/

/-- A concrete successful query state. -/
def qsW : QueryState :=
  { data := .num 1, dataUpdateCount := 1, dataUpdatedAt := 10
    errorUpdateCount := 0, errorUpdatedAt := 0, fetchFailureCount := 0
    isInvalidated := false, status := "success", fetchStatus := "fetching" }

/-- A concrete query client holding one persistable query. -/
def clientW : QueryClient := ⟨[⟨.arr [.str "photos", .num 1], qsW⟩]⟩

/-- A trivial stand-in for `JSON.parse` when instantiating theorems. -/
def parseW : String → Json := fun _ => Json.null

/-- Concrete photos for instantiating the masonry theorem. -/
def photosW : List Photo :=
  [⟨1, 100, 200, "a", "u1"⟩, ⟨2, 100, 200, "b", "u2"⟩, ⟨3, 100, 200, "c", "u3"⟩,
   ⟨4, 100, 200, "d", "u4"⟩, ⟨5, 100, 200, "e", "u5"⟩]

/-- A concrete two-entry snapshot. -/
def snapW : Snapshot :=
  { version := CACHE_VERSION, timestamp := 0
    queries := [("a", qsW), ("b", { qsW with dataUpdatedAt := 99 })] }

/-- A parse oracle on which every key succeeds. -/
def parseSomeW : String → Option Json := fun _ => some Json.null

/-- The malformed-key snapshot of the repo's own test `should handle
malformed query keys`: correct version, fresh timestamp, but the stored
key `invalid-json` is not JSON. -/
def snapBadW : Snapshot :=
  { version := CACHE_VERSION, timestamp := 0
    queries := [("invalid-json", qsW)] }

/-- Model of `JSON.parse` that throws exactly on the non-JSON key
`invalid-json` (as the real `JSON.parse` does). -/
def parseBadW : String → Option Json :=
  fun s => if s = "invalid-json" then none else some Json.null

/-- A local storage holding one stored string under the cache key. -/
def storageBadW : Storage := [(CACHE_KEY, "bad")]

/-- A snapshot-level parse oracle under which the stored string parses
to the malformed-key snapshot. -/
def parseSnapBadW : String → Option Snapshot :=
  fun s => if s = "bad" then some snapBadW else none

/-! ## Helper lemmas -/

/-- Replacing the binding of a present key and then looking it up finds
exactly the new binding. -/
theorem find?_map_replace {α : Type} (k : String) (v : α) :
    ∀ l : List (String × α), l.any (fun kv => kv.1 == k) = true →
      (l.map (fun kv => if kv.1 == k then (k, v) else kv)).find?
        (fun kv => kv.1 == k) = some (k, v) := by
  intro l
  induction l with
  | nil => intro h; simp at h
  | cons a l ih =>
    intro hany
    rw [List.map_cons]
    by_cases hak : a.1 = k
    · rw [if_pos (by simpa using hak)]
      exact List.find?_cons_of_pos _ (by simp)
    · have ha : (a.1 == k) = false := by simpa using hak
      rw [if_neg (by simp [ha]), List.find?_cons_of_neg _ (by simp [ha])]
      rw [List.any_cons, ha, Bool.false_or] at hany
      exact ih hany

/-- After `acc[k] = v`, looking `k` up finds exactly `(k, v)`. -/
theorem find?_objSet_self {α : Type} (l : List (String × α)) (k : String) (v : α) :
    (objSet l k v).find? (fun kv => kv.1 == k) = some (k, v) := by
  rw [objSet]
  split
  · rename_i hany
    exact find?_map_replace k v l hany
  · rename_i hany
    rw [List.find?_append]
    have h1 : l.find? (fun kv => kv.1 == k) = none := by
      rw [List.find?_eq_none]
      intro x hx hpx
      exact hany (List.any_eq_true.mpr ⟨x, hx, hpx⟩)
    simp [h1, List.find?_cons]

/-- Membership in `objSet acc k v`: the element is the new binding or an
element of `acc`. -/
theorem mem_objSet {α : Type} {x : String × α} {l : List (String × α)}
    {k : String} {v : α} (h : x ∈ objSet l k v) : x = (k, v) ∨ x ∈ l := by
  rw [objSet] at h
  split at h
  · rcases List.mem_map.mp h with ⟨y, hy, hxy⟩
    by_cases hk : y.1 == k
    · left; rw [if_pos hk] at hxy; exact hxy.symm
    · right; rw [if_neg hk] at hxy; exact hxy ▸ hy
  · rcases List.mem_append.mp h with h | h
    · right; exact h
    · left; simpa using h

/-- When the key is fresh, `objSet` is a plain append. -/
theorem objSet_eq_append {α : Type} {l : List (String × α)} {k : String}
    (v : α) (h : ∀ kv ∈ l, kv.1 ≠ k) : objSet l k v = l ++ [(k, v)] := by
  rw [objSet, if_neg]
  simp only [List.any_eq_true, not_exists, not_and]
  intro kv hkv
  simpa using h kv hkv

/-- Unfolding the persistence condition: a query whose key passes
`shouldPersistQuery` has an array key headed by one of the persistable
type strings. -/
theorem shouldPersistQuery_shape {k : Json} (h : shouldPersistQuery k = true) :
    ∃ t rest, k = Json.arr (Json.str t :: rest) ∧
      t ∈ persistableQueries ∧ t ∉ nonPersistableQueries := by
  rcases k with _ | b | n | s | xs | kvs
  · exact absurd h (by simp [shouldPersistQuery])
  · exact absurd h (by simp [shouldPersistQuery])
  · exact absurd h (by simp [shouldPersistQuery])
  · exact absurd h (by simp [shouldPersistQuery])
  · rcases xs with _ | ⟨x, rest⟩
    · exact absurd h (by simp [shouldPersistQuery])
    · rcases x with _ | b | n | t | ys | zs
      · exact absurd h (by simp [shouldPersistQuery])
      · exact absurd h (by simp [shouldPersistQuery])
      · exact absurd h (by simp [shouldPersistQuery])
      · refine ⟨t, rest, rfl, ?_, ?_⟩
        · rw [shouldPersistQuery] at h
          split at h
          · exact absurd h (by simp)
          · simpa using h
        · rw [shouldPersistQuery] at h
          split at h
          · exact absurd h (by simp)
          · rename_i hnp
            simpa using hnp
      · exact absurd h (by simp [shouldPersistQuery])
      · exact absurd h (by simp [shouldPersistQuery])
  · exact absurd h (by simp [shouldPersistQuery])

/-- The accumulator step of `serialize` is: apply the object assignment
when `persistPred` holds, do nothing otherwise. -/
theorem serialize_step_eq (acc : List (String × QueryState)) (query : Query) :
    (if query.state.status == "success" && Json.truthy query.state.data then
      if shouldPersistQuery query.queryKey then
        objSet acc (Json.stringify query.queryKey) (persistState query.state)
      else acc
    else acc) =
      if persistPred query then
        objSet acc (Json.stringify query.queryKey) (persistState query.state)
      else acc := by
  rw [persistPred]
  by_cases h1 : (query.state.status == "success" && Json.truthy query.state.data) = true
  · by_cases h2 : shouldPersistQuery query.queryKey = true
    · simp [h1, h2]
    · simp [h1, h2]
  · simp [h1]

/-- Every entry of the `serialize` fold comes from the accumulator or
from a query that satisfies `persistPred`. -/
theorem mem_serialize_foldl :
    ∀ (l : List Query) (acc : List (String × QueryState))
      (kv : String × QueryState),
      kv ∈ l.foldl (fun acc query =>
        if query.state.status == "success" && Json.truthy query.state.data then
          if shouldPersistQuery query.queryKey then
            objSet acc (Json.stringify query.queryKey) (persistState query.state)
          else acc
        else acc) acc →
      kv ∈ acc ∨ ∃ q ∈ l, persistPred q = true ∧
        kv = (Json.stringify q.queryKey, persistState q.state) := by
  intro l
  induction l with
  | nil => intro acc kv h; exact Or.inl h
  | cons q l ih =>
    intro acc kv h
    rw [List.foldl_cons, serialize_step_eq] at h
    rcases ih _ kv h with hacc | ⟨q', hq', hp, hkv⟩
    · by_cases hpq : persistPred q = true
      · rw [if_pos hpq] at hacc
        rcases mem_objSet hacc with heq | hin
        · exact Or.inr ⟨q, List.mem_cons_self q l, hpq, heq⟩
        · exact Or.inl hin
      · rw [if_neg hpq] at hacc
        exact Or.inl hacc
    · exact Or.inr ⟨q', List.mem_cons_of_mem q hq', hp, hkv⟩

/-- The `serialize` fold equals the fold of object assignments over the
queries that pass `persistPred`. -/
theorem serialize_foldl_filter :
    ∀ (l : List Query) (acc : List (String × QueryState)),
      l.foldl (fun acc query =>
        if query.state.status == "success" && Json.truthy query.state.data then
          if shouldPersistQuery query.queryKey then
            objSet acc (Json.stringify query.queryKey) (persistState query.state)
          else acc
        else acc) acc =
      (l.filter persistPred).foldl
        (fun acc q => objSet acc (Json.stringify q.queryKey) (persistState q.state))
        acc := by
  intro l
  induction l with
  | nil => intro acc; rfl
  | cons q l ih =>
    intro acc
    rw [List.foldl_cons, serialize_step_eq, List.filter_cons]
    by_cases hpq : persistPred q = true
    · rw [if_pos hpq, if_pos hpq, List.foldl_cons]
      exact ih _
    · rw [if_neg hpq, if_neg hpq]
      exact ih _

/-- Folding object assignments with pairwise-fresh keys rebuilds the
entry list unchanged. -/
theorem foldl_objSet_nodup {α : Type} :
    ∀ (l acc : List (String × α)), (((acc ++ l).map Prod.fst).Nodup) →
      l.foldl (fun a kv => objSet a kv.1 kv.2) acc = acc ++ l := by
  intro l
  induction l with
  | nil => intro acc _; simp
  | cons x l ih =>
    intro acc hnd
    have hx : ∀ kv ∈ acc, kv.1 ≠ x.1 := by
      intro kv hkv heq
      have h1 : kv.1 ∈ acc.map Prod.fst := List.mem_map_of_mem _ hkv
      rw [List.map_append, List.nodup_append] at hnd
      have h3 := hnd.2.2 h1
      rw [heq] at h3
      exact h3 (by simp)
    rw [List.foldl_cons]
    rw [objSet_eq_append x.2 hx]
    have : acc ++ [(x.1, x.2)] ++ l = acc ++ x :: l := by simp
    rw [ih (acc ++ [(x.1, x.2)]) (by simpa [this] using hnd), this]

/-! ## Claim theorems -/

/-- Characterization of the total restriction `deserialize`: `none`
exactly for a missing snapshot, a version mismatch or an expired
snapshot, and the mapped query list otherwise. -/
theorem deserialize_none_iff (parse : String → Json) (now : Int)
    (cached : Option Snapshot) :
    (deserialize parse now cached = none ↔
      cached = none ∨ ∃ c, cached = some c ∧
        (c.version ≠ CACHE_VERSION ∨ now - c.timestamp > CACHE_EXPIRY)) ∧
    (∀ c, cached = some c → c.version = CACHE_VERSION →
      now - c.timestamp ≤ CACHE_EXPIRY →
      deserialize parse now cached =
        some (c.queries.map (fun kv => ⟨parse kv.1, kv.1, kv.2⟩))) := by
  constructor
  · cases cached with
    | none => simp [deserialize]
    | some c =>
      by_cases h1 : c.version = CACHE_VERSION
      · by_cases h2 : now - c.timestamp > CACHE_EXPIRY
        · simp [deserialize, h1, h2]
        · simp [deserialize, h1, h2]
      · simp [deserialize, h1]
  · intro c hc h1 h2
    subst hc
    simp [deserialize, h1, not_lt.mpr h2]

/-- When every key of the list parses, `parseKeysE` succeeds with the
mapped entries. -/
theorem parseKeysE_total (parse : String → Option Json) (parseT : String → Json) :
    ∀ l : List (String × QueryState),
      (∀ kv ∈ l, parse kv.1 = some (parseT kv.1)) →
      parseKeysE parse l = .ok (l.map (fun kv => ⟨parseT kv.1, kv.1, kv.2⟩)) := by
  intro l
  induction l with
  | nil => intro _; rfl
  | cons kv rest ih =>
    intro h
    rw [parseKeysE, h kv (List.mem_cons_self kv rest),
      ih (fun kv2 hkv2 => h kv2 (List.mem_cons_of_mem kv hkv2))]
    rfl

/-- On a snapshot all of whose keys parse, the full model `deserializeE`
returns normally with exactly the result of the total restriction
`deserialize`. -/
theorem deserializeE_eq_total (parse : String → Option Json)
    (parseT : String → Json) (now : Int) (cached : Option Snapshot)
    (hkeys : ∀ c, cached = some c → ∀ kv ∈ c.queries, parse kv.1 = some (parseT kv.1)) :
    deserializeE parse now cached = .ok (deserialize parseT now cached) := by
  cases cached with
  | none => rfl
  | some c =>
    by_cases h1 : c.version = CACHE_VERSION
    · by_cases h2 : now - c.timestamp > CACHE_EXPIRY
      · simp [deserializeE, deserialize, h1, h2]
      · simp only [deserializeE, deserialize, h1, h2]
        rw [parseKeysE_total parse parseT c.queries (hkeys c rfl)]
        simp
    · simp [deserializeE, deserialize, h1]

/-- C1 counterexample.  The malformed-key snapshot of the repo's own
test: it is present, has the cache version and is fresh, yet
`deserialize` throws instead of returning `undefined` or the list of
stored queries — so the claimed `if and only if` and the claimed result
on `every other snapshot` both fail on this input. -/
theorem C1_deserialize_counterexample :
    some snapBadW ≠ (none : Option Snapshot) ∧
    snapBadW.version = CACHE_VERSION ∧
    (0 : Int) - snapBadW.timestamp ≤ CACHE_EXPIRY ∧
    deserializeE parseBadW 0 (some snapBadW) = .error () ∧
    deserializeE parseBadW 0 (some snapBadW) ≠ .ok none ∧
    (∀ entries, deserializeE parseBadW 0 (some snapBadW) ≠ .ok (some entries)) := by
  have heq : deserializeE parseBadW 0 (some snapBadW) = .error () := rfl
  refine ⟨by simp, rfl, by decide, heq, ?_, ?_⟩
  · rw [heq]
    intro h
    exact Except.noConfusion h
  · intro entries
    rw [heq]
    intro h
    exact Except.noConfusion h

/-- C1 amended.  For every stored snapshot all of whose stored keys
`JSON.parse` accepts, `deserialize` returns `undefined` exactly when the
snapshot is missing, has a version other than the cache version, or is
older than 24 hours; every other such snapshot yields the list of stored
queries.  (A snapshot passing those checks but holding a non-JSON key
makes `deserialize` throw instead, as the counterexample shows.) -/
theorem C1_deserialize_amended (parse : String → Option Json)
    (parseT : String → Json) (now : Int) (cached : Option Snapshot)
    (hkeys : ∀ c, cached = some c → ∀ kv ∈ c.queries, parse kv.1 = some (parseT kv.1)) :
    deserializeE parse now cached = .ok (deserialize parseT now cached) ∧
    (deserializeE parse now cached = .ok none ↔
      cached = none ∨ ∃ c, cached = some c ∧
        (c.version ≠ CACHE_VERSION ∨ now - c.timestamp > CACHE_EXPIRY)) ∧
    (∀ c, cached = some c → c.version = CACHE_VERSION →
      now - c.timestamp ≤ CACHE_EXPIRY →
      deserializeE parse now cached =
        .ok (some (c.queries.map (fun kv => ⟨parseT kv.1, kv.1, kv.2⟩)))) := by
  have heq := deserializeE_eq_total parse parseT now cached hkeys
  have hchar := deserialize_none_iff parseT now cached
  refine ⟨heq, ?_, ?_⟩
  · rw [heq]
    simp only [Except.ok.injEq]
    exact hchar.1
  · intro c hc h1 h2
    rw [heq, hchar.2 c hc h1 h2]

/-- C1 witness: the one-query snapshot `snapW` under an oracle that
parses every key. -/
theorem C1_deserialize_amended_witness :
    deserializeE parseSomeW 0 (some snapW) = .ok (deserialize parseW 0 (some snapW)) ∧
    (deserializeE parseSomeW 0 (some snapW) = .ok none ↔
      some snapW = none ∨ ∃ c, some snapW = some c ∧
        (c.version ≠ CACHE_VERSION ∨ (0 : Int) - c.timestamp > CACHE_EXPIRY)) ∧
    (∀ c, some snapW = some c → c.version = CACHE_VERSION →
      (0 : Int) - c.timestamp ≤ CACHE_EXPIRY →
      deserializeE parseSomeW 0 (some snapW) =
        .ok (some (c.queries.map (fun kv => ⟨parseW kv.1, kv.1, kv.2⟩)))) :=
  C1_deserialize_amended parseSomeW parseW 0 (some snapW)
    (by intro c hc kv _; cases hc; rfl)

/-- C5.  When the first write throws, `saveToStorage` removes exactly the
keys starting with `photo-gallery-cache-old-`, retries the write once,
and returns normally (`.ok`) even when the retry throws too. -/
theorem C5_save_retry (storage : Storage) (data : Snapshot) (fail2 : Bool) :
    saveToStorage true fail2 storage data =
      .ok (if fail2 then cleanupStorage storage
        else objSet (cleanupStorage storage) CACHE_KEY (snapshotString data)) ∧
    (∀ kv : String × String, kv ∈ cleanupStorage storage ↔
      kv ∈ storage ∧ strStartsWith kv.1 "photo-gallery-cache-old-" = false) := by
  constructor
  · cases fail2
    · simp [saveToStorage, setItemE, ite_self]
    · simp [saveToStorage, setItemE, ite_self]
  · intro kv
    simp [cleanupStorage, List.mem_filter]

/-- C6 counterexample.  Local storage holds a string that
`loadFromStorage` parses to a fresh, correct-version snapshot, but the
snapshot's stored key is not JSON: `deserialize` throws uncaught inside
`initializePersistence`, so no `setQueryData` call happens and — against
the claim's `in every case` — no cleanup function is returned. -/
theorem C6_initializePersistence_counterexample :
    (loadFromStorage parseSnapBadW storageBadW).1 = some snapBadW ∧
    snapBadW.version = CACHE_VERSION ∧
    (0 : Int) - snapBadW.timestamp ≤ CACHE_EXPIRY ∧
    initializePersistence parseBadW parseSnapBadW 0 storageBadW = .error () ∧
    (∀ r, initializePersistence parseBadW parseSnapBadW 0 storageBadW ≠ .ok r) := by
  have heq : initializePersistence parseBadW parseSnapBadW 0 storageBadW =
      .error () := rfl
  refine ⟨rfl, rfl, by decide, heq, ?_⟩
  intro r h
  rw [heq] at h
  exact Except.noConfusion h

/-- C6 amended.  Whenever local storage holds a snapshot that
`loadFromStorage` parses and `deserialize` accepts,
`initializePersistence` calls `setQueryData` once per stored query with
the query's key, its stored data and `updatedAt` equal to the stored
`dataUpdatedAt`, and returns a cleanup function; when storage is empty,
unparsable, expired, or version-mismatched, no call is made and a
cleanup function is still returned.  But when `deserialize` throws on
the loaded snapshot (malformed stored key), the exception escapes
`initializePersistence` and no cleanup function is returned. -/
theorem C6_initializePersistence_amended (parse : String → Option Json)
    (parseSnap : String → Option Snapshot) (now : Int) (storage : Storage) :
    ((loadFromStorage parseSnap storage).1 = none →
      initializePersistence parse parseSnap now storage =
        .ok { hydrationCalls := [], returnsCleanup := true }) ∧
    (∀ snap, (loadFromStorage parseSnap storage).1 = some snap →
      deserializeE parse now (some snap) = .ok none →
      initializePersistence parse parseSnap now storage =
        .ok { hydrationCalls := [], returnsCleanup := true }) ∧
    (∀ snap entries, (loadFromStorage parseSnap storage).1 = some snap →
      deserializeE parse now (some snap) = .ok (some entries) →
      initializePersistence parse parseSnap now storage =
        .ok { hydrationCalls := entries.map
                (fun e => ⟨e.queryKey, e.state.data, e.state.dataUpdatedAt⟩)
              returnsCleanup := true }) ∧
    (∀ snap, (loadFromStorage parseSnap storage).1 = some snap →
      deserializeE parse now (some snap) = .error () →
      initializePersistence parse parseSnap now storage = .error ()) := by
  refine ⟨?_, ?_, ?_, ?_⟩
  · intro h
    rw [initializePersistence, h]
  · intro snap h h2
    rw [initializePersistence, h]
    simp only [h2]
  · intro snap entries h h2
    rw [initializePersistence, h]
    simp only [h2]
  · intro snap h h2
    rw [initializePersistence, h]
    simp only [h2]

/-- C8.  The service-worker fetch handler: only `picsum.photos` URLs are
answered; a cache hit is served from the cache; a miss is answered with
the network response, which is stored in the cache iff its status is
200. -/
theorem C8_sw_fetch (cache : List (String × SWResponse)) (url : String)
    (net : Except Unit SWResponse) :
    (strIncludes url "picsum.photos" = false → handleFetch cache url net = none) ∧
    (strIncludes url "picsum.photos" = true →
      (∀ r, cacheMatch cache url = some r →
        handleFetch cache url net = some (.ok r, cache)) ∧
      (cacheMatch cache url = none →
        (∀ r, net = .ok r →
          handleFetch cache url net =
            some (.ok r,
              if r.status = 200 then cachePut cache url r else cache) ∧
          (cacheMatch (if r.status = 200 then cachePut cache url r else cache)
              url = some r ↔ r.status = 200)) ∧
        (∀ e, net = .error e →
          handleFetch cache url net = some (.error e, cache)))) := by
  constructor
  · intro h
    rw [handleFetch.eq_def, if_neg (by simp [h])]
  · intro h
    constructor
    · intro r hr
      rw [handleFetch.eq_def, if_pos h, hr]
    · intro hmiss
      constructor
      · intro r hr
        constructor
        · rw [handleFetch.eq_def, if_pos h, hmiss, hr]
        · constructor
          · intro hsome
            by_contra h200
            rw [if_neg h200, hmiss] at hsome
            exact Option.noConfusion hsome
          · intro h200
            rw [if_pos h200, cacheMatch, cachePut, find?_objSet_self]
            rfl
      · intro e he
        rw [handleFetch.eq_def, if_pos h, hmiss, he]

/-- C10.  `fetchPhotoInfo` never rejects: a network error, a non-ok
response, or a body that fails to parse all resolve to the deterministic
fallback object, and an ok response with a parsed body resolves to that
body. -/
theorem C10_fetchPhotoInfo (photoId : Nat) :
    (∀ outcome, ∃ j, fetchPhotoInfo photoId outcome = .ok j) ∧
    fetchPhotoInfo photoId (.error ()) = .ok (fallbackPhotoInfo photoId) ∧
    (∀ r, r.ok = false →
      fetchPhotoInfo photoId (.ok r) = .ok (fallbackPhotoInfo photoId)) ∧
    (∀ r, r.ok = true → r.body = .error () →
      fetchPhotoInfo photoId (.ok r) = .ok (fallbackPhotoInfo photoId)) ∧
    (∀ r j, r.ok = true → r.body = .ok j →
      fetchPhotoInfo photoId (.ok r) = .ok j) := by
  refine ⟨?_, ?_, ?_, ?_, ?_⟩
  · intro outcome
    rcases outcome with _ | r
    · exact ⟨fallbackPhotoInfo photoId, rfl⟩
    · rcases r with ⟨rok, rbody⟩
      cases rok
      · exact ⟨fallbackPhotoInfo photoId, rfl⟩
      · rcases rbody with _ | j
        · exact ⟨fallbackPhotoInfo photoId, rfl⟩
        · exact ⟨j, rfl⟩
  · rfl
  · intro r hok
    rcases r with ⟨rok, rbody⟩
    cases hok
    rfl
  · intro r hok hb
    rcases r with ⟨rok, rbody⟩
    cases hok
    cases hb
    rfl
  · intro r j hok hb
    rcases r with ⟨rok, rbody⟩
    cases hok
    cases hb
    rfl

/-- Closed form of the snapshot produced by `serialize` when the
stringified keys of the persisted queries are pairwise distinct (they
always are in a real query cache, which is keyed by the query hash). -/
theorem serialize_queries_eq (now : Int) (client : QueryClient)
    (h : ((client.queries.filter persistPred).map
      (fun q => Json.stringify q.queryKey)).Nodup) :
    (serialize now client).queries =
      (client.queries.filter persistPred).map
        (fun q => (Json.stringify q.queryKey, persistState q.state)) := by
  rw [serialize]
  rw [serialize_foldl_filter]
  have hfold :
      (client.queries.filter persistPred).foldl
        (fun acc q => objSet acc (Json.stringify q.queryKey) (persistState q.state))
        [] =
      ((client.queries.filter persistPred).map
        (fun q => (Json.stringify q.queryKey, persistState q.state))).foldl
        (fun acc kv => objSet acc kv.1 kv.2) [] := by
    rw [List.foldl_map]
  rw [hfold]
  rw [foldl_objSet_nodup _ []]
  · rw [List.nil_append]
  · rw [List.nil_append, List.map_map]
    exact h

/-- C9.  Every entry of a snapshot produced by `serialize` comes from a
query whose status is `success`, whose data is truthy, and whose key is
an array headed by one of the persistable type strings (`photos`,
`photoInfo`, `slideshowPhotos`); no other query is ever persisted. -/
theorem C9_serialize_invariant (now : Int) (client : QueryClient)
    (kv : String × QueryState) (h : kv ∈ (serialize now client).queries) :
    ∃ q ∈ client.queries,
      kv = (Json.stringify q.queryKey, persistState q.state) ∧
      q.state.status = "success" ∧ Json.truthy q.state.data = true ∧
      ∃ t rest, q.queryKey = Json.arr (Json.str t :: rest) ∧
        t ∈ persistableQueries ∧ t ∉ nonPersistableQueries := by
  rw [serialize] at h
  rcases mem_serialize_foldl client.queries [] kv h with hacc | ⟨q, hq, hp, hkv⟩
  · exact absurd hacc (List.not_mem_nil kv)
  · rw [persistPred, Bool.and_eq_true, Bool.and_eq_true] at hp
    obtain ⟨⟨hst, hdata⟩, hkey⟩ := hp
    refine ⟨q, hq, hkv, ?_, hdata, shouldPersistQuery_shape hkey⟩
    simpa using hst

/-- C9 witness: the single persisted query of `clientW` satisfies the
invariant. -/
theorem C9_serialize_invariant_witness :
    ∃ q ∈ clientW.queries,
      (Json.stringify (Json.arr [Json.str "photos", Json.num 1]), persistState qsW)
        = (Json.stringify q.queryKey, persistState q.state) ∧
      q.state.status = "success" ∧ Json.truthy q.state.data = true ∧
      ∃ t rest, q.queryKey = Json.arr (Json.str t :: rest) ∧
        t ∈ persistableQueries ∧ t ∉ nonPersistableQueries :=
  C9_serialize_invariant 0 clientW
    (Json.stringify (Json.arr [Json.str "photos", Json.num 1]), persistState qsW)
    (List.Mem.head _)

/-- C3.  Round trip: deserializing a snapshot produced by `serialize`
within the expiry window yields one entry per persisted query, with the
parsed stringified key as `queryKey`, the stringified key as `queryHash`,
and the serialized state. -/
theorem C3_round_trip (parse : String → Json) (t tn : Int) (client : QueryClient)
    (h : ((client.queries.filter persistPred).map
      (fun q => Json.stringify q.queryKey)).Nodup)
    (hexp : tn - t ≤ CACHE_EXPIRY) :
    deserialize parse tn (some (serialize t client)) =
      some ((client.queries.filter persistPred).map
        (fun q => ⟨parse (Json.stringify q.queryKey), Json.stringify q.queryKey,
          persistState q.state⟩)) := by
  have hq := serialize_queries_eq t client h
  have hv : (serialize t client).version = CACHE_VERSION := rfl
  have ht : (serialize t client).timestamp = t := rfl
  simp only [deserialize, hv, ht, ne_eq, not_true_eq_false, if_false,
    not_lt.mpr hexp, ite_false, if_neg (not_lt.mpr hexp)]
  rw [hq, List.map_map]
  rfl

/-- C3 witness: round trip of the one-query client at time 0, read back
at time 0. -/
theorem C3_round_trip_witness :
    deserialize parseW 0 (some (serialize 0 clientW)) =
      some ((clientW.queries.filter persistPred).map
        (fun q => ⟨parseW (Json.stringify q.queryKey), Json.stringify q.queryKey,
          persistState q.state⟩)) :=
  C3_round_trip parseW 0 0 clientW (by decide) (by decide)

/-- Inside a burst (consecutive calls less than 1000 ms apart), every
`throttledSave` call finds the previous timer still pending, cancels it,
and schedules its own; no save fires during the burst. -/
theorem runThrottledCalls_burst (client : QueryClient) :
    ∀ (rest : List Int) (tc : Int) (saves : List (Int × Snapshot)),
      List.Chain' (fun a b => a ≤ b ∧ b - a < 1000) (tc :: rest) →
      runThrottledCalls client rest { pending := some (tc + 1000), saves := saves } =
        { pending := some (rest.getLastD tc + 1000), saves := saves } := by
  intro rest
  induction rest with
  | nil => intro tc saves _; rfl
  | cons t' rest ih =>
    intro tc saves hch
    rw [List.chain'_cons] at hch
    obtain ⟨⟨hle, hgap⟩, hch'⟩ := hch
    rw [runThrottledCalls, List.foldl_cons]
    have hstep : throttledSave t' (fireDue client t'
        { pending := some (tc + 1000), saves := saves }) =
        { pending := some (t' + 1000), saves := saves } := by
      rw [fireDue]
      simp only []
      rw [if_neg (by omega)]
      rfl
    rw [hstep]
    have hrec := ih t' saves hch'
    rw [runThrottledCalls] at hrec
    rw [hrec, List.getLastD_cons]

/-- C4.  A burst of `throttledSave` calls performs no synchronous write,
each call cancels the pending timer, and exactly one save (`serialize`
then `saveToStorage`) executes, 1000 ms after the last call. -/
theorem C4_debounce (client : QueryClient) (times : List Int) (h1 : times ≠ [])
    (h2 : List.Chain' (fun a b => a ≤ b ∧ b - a < 1000) times) :
    (debounceRun client times).saves =
      [(times.getLast h1 + 1000, serialize (times.getLast h1 + 1000) client)] ∧
    (∀ now s, (throttledSave now s).saves = s.saves ∧
      (throttledSave now s).pending = some (now + 1000)) := by
  constructor
  · rcases times with _ | ⟨t, rest⟩
    · exact absurd rfl h1
    · rw [debounceRun, runThrottledCalls, List.foldl_cons]
      have hfirst : throttledSave t (fireDue client t
          { pending := none, saves := [] }) =
          { pending := some (t + 1000), saves := [] } := rfl
      rw [hfirst]
      have hrun := runThrottledCalls_burst client rest t [] h2
      rw [runThrottledCalls] at hrun
      rw [hrun, flushTimers, List.getLast_eq_getLastD]
      rfl
  · intro now s
    exact ⟨rfl, rfl⟩

/-- The comparator of `cleanupLargeCache` is transitive. -/
theorem cleanupComparator_trans (a b c : String × QueryState)
    (h1 : (decide (b.2.dataUpdatedAt ≤ a.2.dataUpdatedAt)) = true)
    (h2 : (decide (c.2.dataUpdatedAt ≤ b.2.dataUpdatedAt)) = true) :
    (decide (c.2.dataUpdatedAt ≤ a.2.dataUpdatedAt)) = true := by
  rw [decide_eq_true_eq] at h1 h2 ⊢
  exact le_trans h2 h1

/-- The comparator of `cleanupLargeCache` is total. -/
theorem cleanupComparator_total (a b : String × QueryState) :
    ((decide (b.2.dataUpdatedAt ≤ a.2.dataUpdatedAt)) ||
      (decide (a.2.dataUpdatedAt ≤ b.2.dataUpdatedAt))) = true := by
  rcases le_total b.2.dataUpdatedAt a.2.dataUpdatedAt with h | h
  · simp [h]
  · simp [h]

/-- Closed form of `cleanupLargeCache` when the snapshot's keys are
pairwise distinct: its queries are the first half of the entries sorted
by decreasing `dataUpdatedAt`. -/
theorem cleanupLargeCache_queries (data : Snapshot)
    (h : (data.queries.map Prod.fst).Nodup) :
    (cleanupLargeCache data).queries =
      (data.queries.mergeSort
        (fun a b => b.2.dataUpdatedAt ≤ a.2.dataUpdatedAt)).take
        (data.queries.length / 2) := by
  have hperm := List.mergeSort_perm data.queries
    (fun a b => decide (b.2.dataUpdatedAt ≤ a.2.dataUpdatedAt))
  have hnd : (((data.queries.mergeSort
      (fun a b => b.2.dataUpdatedAt ≤ a.2.dataUpdatedAt)).take
        (data.queries.length / 2)).map Prod.fst).Nodup := by
    have hnds : ((data.queries.mergeSort
        (fun a b => b.2.dataUpdatedAt ≤ a.2.dataUpdatedAt)).map Prod.fst).Nodup :=
      ((hperm.map Prod.fst).symm).nodup h
    rw [List.map_take]
    exact (List.take_sublist _ _).nodup hnds
  rw [cleanupLargeCache]
  simp only []
  rw [foldl_objSet_nodup _ [] (by simpa using hnd), List.nil_append]

/-- C2.  A snapshot whose JSON string fits in the 50MB limit is written
unchanged under the cache key; a larger one is written after
`cleanupLargeCache`, which keeps exactly `floor(n * 0.5)` of its `n`
query entries — ones with the greatest `dataUpdatedAt` — and drops the
rest, leaving version and timestamp unchanged. -/
theorem C2_saveToStorage_size (storage : Storage) (data : Snapshot) (f2 : Bool)
    (h : (data.queries.map Prod.fst).Nodup) :
    ((snapshotString data).length ≤ MAX_CACHE_SIZE →
      saveToStorage false f2 storage data =
        .ok (objSet storage CACHE_KEY (snapshotString data))) ∧
    (MAX_CACHE_SIZE < (snapshotString data).length →
      saveToStorage false f2 storage data =
        .ok (objSet storage CACHE_KEY (snapshotString (cleanupLargeCache data))) ∧
      ∃ dropped,
        ((cleanupLargeCache data).queries ++ dropped).Perm data.queries ∧
        (cleanupLargeCache data).queries.length = data.queries.length / 2 ∧
        (∀ a ∈ (cleanupLargeCache data).queries, ∀ b ∈ dropped,
          b.2.dataUpdatedAt ≤ a.2.dataUpdatedAt) ∧
        (cleanupLargeCache data).version = data.version ∧
        (cleanupLargeCache data).timestamp = data.timestamp) := by
  constructor
  · intro hle
    simp only [saveToStorage, setItemE, if_neg (not_lt.mpr hle)]
    rfl
  · intro hgt
    have hkeep : data.queries.length / 2 ≤ data.queries.length :=
      Nat.div_le_self _ _
    have hperm := List.mergeSort_perm data.queries
      (fun a b => decide (b.2.dataUpdatedAt ≤ a.2.dataUpdatedAt))
    have hlen : (data.queries.mergeSort
        (fun a b => b.2.dataUpdatedAt ≤ a.2.dataUpdatedAt)).length =
        data.queries.length := hperm.length_eq
    have hsorted := List.sorted_mergeSort cleanupComparator_trans
      cleanupComparator_total data.queries
    refine ⟨?_, ?_⟩
    · simp only [saveToStorage, setItemE, if_pos hgt]
      rfl
    · refine ⟨(data.queries.mergeSort
        (fun a b => b.2.dataUpdatedAt ≤ a.2.dataUpdatedAt)).drop
          (data.queries.length / 2), ?_, ?_, ?_, rfl, rfl⟩
      · rw [cleanupLargeCache_queries data h, List.take_append_drop]
        exact hperm
      · rw [cleanupLargeCache_queries data h, List.length_take, hlen]
        exact Nat.min_eq_left hkeep
      · intro a ha b hb
        rw [cleanupLargeCache_queries data h] at ha
        have hpair : List.Pairwise
            (fun a b => decide (b.2.dataUpdatedAt ≤ a.2.dataUpdatedAt) = true)
            ((data.queries.mergeSort
              (fun a b => b.2.dataUpdatedAt ≤ a.2.dataUpdatedAt)).take
                (data.queries.length / 2) ++
             (data.queries.mergeSort
              (fun a b => b.2.dataUpdatedAt ≤ a.2.dataUpdatedAt)).drop
                (data.queries.length / 2)) := by
          rw [List.take_append_drop]
          exact hsorted
        have hsplit := List.pairwise_append.mp hpair
        exact of_decide_eq_true (hsplit.2.2 a ha b hb)

/-- C2 witness: the two-entry snapshot `snapW` has distinct keys and
satisfies the size dichotomy. -/
theorem C2_saveToStorage_size_witness :
    ((snapshotString snapW).length ≤ MAX_CACHE_SIZE →
      saveToStorage false false [] snapW =
        .ok (objSet [] CACHE_KEY (snapshotString snapW))) ∧
    (MAX_CACHE_SIZE < (snapshotString snapW).length →
      saveToStorage false false [] snapW =
        .ok (objSet [] CACHE_KEY (snapshotString (cleanupLargeCache snapW))) ∧
      ∃ dropped,
        ((cleanupLargeCache snapW).queries ++ dropped).Perm snapW.queries ∧
        (cleanupLargeCache snapW).queries.length = snapW.queries.length / 2 ∧
        (∀ a ∈ (cleanupLargeCache snapW).queries, ∀ b ∈ dropped,
          b.2.dataUpdatedAt ≤ a.2.dataUpdatedAt) ∧
        (cleanupLargeCache snapW).version = snapW.version ∧
        (cleanupLargeCache snapW).timestamp = snapW.timestamp) :=
  C2_saveToStorage_size [] snapW false (by decide)

/-- C4 witness: two calls 500 ms apart produce exactly one save at
1500 ms. -/
theorem C4_debounce_witness :
    (debounceRun clientW [0, 500]).saves =
      [(1500, serialize 1500 clientW)] ∧
    (∀ now s, (throttledSave now s).saves = s.saves ∧
      (throttledSave now s).pending = some (now + 1000)) :=
  C4_debounce clientW [0, 500] (by decide)
    (List.chain'_cons.mpr ⟨⟨by decide, by decide⟩, List.chain'_singleton 500⟩)

/-- The masonry fold preserves the number of columns. -/
theorem masonry_foldl_length (cc : Nat) :
    ∀ (l : List (Nat × Photo)) (cols : List (List Photo)),
      (l.foldl (masonryStep cc) cols).length = cols.length := by
  intro l
  induction l with
  | nil => intro cols; rfl
  | cons ip l ih =>
    intro cols
    rw [List.foldl_cons, ih, masonryStep, List.length_set]

/-- Closed form of the masonry fold: column `j` receives, in order, the
photos whose running index is congruent to `j` modulo the column
count. -/
theorem masonry_foldl_getD (cc : Nat) :
    ∀ (l : List Photo) (k : Nat) (cols : List (List Photo)), cols.length = cc →
      ∀ j, j < cc →
      ((List.enumFrom k l).foldl (masonryStep cc) cols).getD j [] =
        cols.getD j [] ++
          ((List.enumFrom k l).filter (fun ip => ip.1 % cc == j)).map Prod.snd := by
  intro l
  induction l with
  | nil => intro k cols hlen j hj; simp
  | cons p l ih =>
    intro k cols hlen j hj
    rw [List.enumFrom_cons, List.foldl_cons]
    have hstep_len : (masonryStep cc cols (k, p)).length = cc := by
      rw [masonryStep, List.length_set, hlen]
    rw [ih (k + 1) _ hstep_len j hj, List.filter_cons]
    by_cases hk : k % cc = j
    · rw [if_pos (by simpa using hk), List.map_cons]
      have hcol : (masonryStep cc cols (k, p)).getD j [] = cols.getD j [] ++ [p] := by
        rw [masonryStep]
        simp only [hk]
        rw [List.getD_eq_getElem?_getD, List.getElem?_set, if_pos rfl,
          if_pos (by rw [hlen]; exact hj), ← hk]
        rfl
      rw [hcol, List.append_assoc]
      rfl
    · rw [if_neg (by simpa using hk)]
      have hcol : (masonryStep cc cols (k, p)).getD j [] = cols.getD j [] := by
        rw [masonryStep, List.getD_eq_getElem?_getD, List.getElem?_set,
          if_neg hk, ← List.getD_eq_getElem?_getD]
      rw [hcol]

/-- Column `j` of the masonry layout is exactly the ordered list of valid
photos whose index is congruent to `j`. -/
theorem masonry_columns_getD (allPhotos : List Photo) (invalid : List Int)
    (cc : Nat) (j : Nat) (hj : j < cc) :
    (createOrderedMasonryColumns allPhotos invalid cc).getD j [] =
      (((validPhotosOf allPhotos invalid).enum.filter
        (fun ip => ip.1 % cc == j)).map Prod.snd) := by
  rw [createOrderedMasonryColumns]
  have henum : (validPhotosOf allPhotos invalid).enum =
      List.enumFrom 0 (validPhotosOf allPhotos invalid) := rfl
  rw [henum, masonry_foldl_getD cc _ 0 _ (List.length_replicate cc []) j hj]
  have hrep : (List.replicate cc ([] : List Photo)).getD j [] = [] := by
    rw [List.getD_eq_getElem?_getD, List.getElem?_replicate, if_pos hj]
    rfl
  rw [hrep, List.nil_append]

/-- The number of masonry columns is the column count. -/
theorem masonry_columns_length (allPhotos : List Photo) (invalid : List Int)
    (cc : Nat) :
    (createOrderedMasonryColumns allPhotos invalid cc).length = cc := by
  rw [createOrderedMasonryColumns, masonry_foldl_length, List.length_replicate]

/-- Counting the indices below `n` that are congruent to `j` modulo
`cc`. -/
theorem countP_range_mod (cc : Nat) (hcc : 0 < cc) (j : Nat) (hj : j < cc) :
    ∀ n, (List.range n).countP (fun i => i % cc == j) =
      n / cc + if j < n % cc then 1 else 0 := by
  intro n
  induction n with
  | zero => simp [Nat.div_eq_of_lt hcc]
  | succ n ih =>
    rw [List.range_succ, List.countP_append, ih]
    have hsingle : List.countP (fun i => i % cc == j) [n] =
        if n % cc = j then 1 else 0 := by
      simp [List.countP_cons]
    rw [hsingle]
    have hq : cc * (n / cc) + n % cc = n := Nat.div_add_mod n cc
    have hr : n % cc < cc := Nat.mod_lt n hcc
    have h1 : n + 1 = cc * (n / cc) + (n % cc + 1) := by omega
    by_cases hc : n % cc + 1 < cc
    · have hdiv : (n + 1) / cc = n / cc := by
        rw [h1, Nat.mul_add_div hcc, Nat.div_eq_of_lt hc, Nat.add_zero]
      have hmod : (n + 1) % cc = n % cc + 1 := by
        rw [h1, Nat.mul_add_mod, Nat.mod_eq_of_lt hc]
      rw [hdiv, hmod]
      split_ifs <;> omega
    · have hc2 : n % cc + 1 = cc := by omega
      have hdiv : (n + 1) / cc = n / cc + 1 := by
        rw [h1, hc2, Nat.mul_add_div hcc, Nat.div_self hcc]
      have hmod : (n + 1) % cc = 0 := by
        rw [h1, hc2, Nat.mul_add_mod, Nat.mod_self]
      rw [hdiv, hmod]
      split_ifs <;> omega

/-- The length of a masonry column as an index count. -/
theorem enum_filter_mod_length (l : List Photo) (cc j : Nat) :
    (((l.enum.filter (fun ip => ip.1 % cc == j)).map Prod.snd)).length =
      (List.range l.length).countP (fun i => i % cc == j) := by
  rw [List.length_map, ← List.countP_eq_length_filter, ← List.enum_map_fst l,
    List.countP_map]
  rfl

/-- Summing the per-residue counts recovers the total. -/
theorem sum_range_residues (m q r : Nat) :
    ((List.range m).map (fun j => q + if j < r then 1 else 0)).sum =
      m * q + min r m := by
  induction m with
  | zero => simp
  | succ m ih =>
    rw [List.range_succ, List.map_append, List.sum_append, ih, Nat.succ_mul]
    by_cases h : m < r
    · rw [List.map_cons]
      simp only [if_pos h]
      simp only [List.map_nil, List.sum_cons, List.sum_nil]
      omega
    · rw [List.map_cons]
      simp only [if_neg h]
      simp only [List.map_nil, List.sum_cons, List.sum_nil]
      omega

/-- The masonry columns as a map over the column indices. -/
theorem masonry_columns_eq_map (allPhotos : List Photo) (invalid : List Int)
    (cc : Nat) :
    createOrderedMasonryColumns allPhotos invalid cc =
      (List.range cc).map (fun j =>
        (((validPhotosOf allPhotos invalid).enum.filter
          (fun ip => ip.1 % cc == j)).map Prod.snd)) := by
  apply List.ext_getElem
  · rw [masonry_columns_length, List.length_map, List.length_range]
  · intro i h1 h2
    have hi : i < cc := by
      rw [masonry_columns_length] at h1
      exact h1
    have hgd := masonry_columns_getD allPhotos invalid cc i hi
    rw [List.getD_eq_getElem _ _ h1] at hgd
    rw [hgd, List.getElem_map, List.getElem_range]

/-- C7.  The masonry layout distributes the valid photos (those not
marked invalid) over exactly `columnCount` columns, sending the photo at
index `i` of the valid list to column `i % columnCount`; no photo is
dropped or duplicated (the column sizes sum to the number of valid
photos), and any two column lengths differ by at most one. -/
theorem C7_masonry (allPhotos : List Photo) (invalid : List Int) (cc : Nat)
    (hcc : 0 < cc) :
    (createOrderedMasonryColumns allPhotos invalid cc).length = cc ∧
    (∀ j, j < cc →
      (createOrderedMasonryColumns allPhotos invalid cc).getD j [] =
        (((validPhotosOf allPhotos invalid).enum.filter
          (fun ip => ip.1 % cc == j)).map Prod.snd)) ∧
    ((createOrderedMasonryColumns allPhotos invalid cc).map List.length).sum =
      (validPhotosOf allPhotos invalid).length ∧
    (∀ j k, j < cc → k < cc →
      ((createOrderedMasonryColumns allPhotos invalid cc).getD j []).length ≤
        ((createOrderedMasonryColumns allPhotos invalid cc).getD k []).length
          + 1) := by
  refine ⟨masonry_columns_length allPhotos invalid cc,
    fun j hj => masonry_columns_getD allPhotos invalid cc j hj, ?_, ?_⟩
  · rw [masonry_columns_eq_map, List.map_map]
    have hpt : List.map ((fun col => List.length col) ∘ (fun j =>
        (((validPhotosOf allPhotos invalid).enum.filter
          (fun ip => ip.1 % cc == j)).map Prod.snd))) (List.range cc) =
        List.map (fun j => (validPhotosOf allPhotos invalid).length / cc +
          if j < (validPhotosOf allPhotos invalid).length % cc then 1 else 0)
          (List.range cc) := by
      apply List.map_congr_left
      intro j hjmem
      simp only [Function.comp]
      rw [enum_filter_mod_length,
        countP_range_mod cc hcc j (List.mem_range.mp hjmem)]
    rw [hpt, sum_range_residues]
    have h1 := Nat.div_add_mod (validPhotosOf allPhotos invalid).length cc
    have h2 : (validPhotosOf allPhotos invalid).length % cc < cc :=
      Nat.mod_lt _ hcc
    omega
  · intro j k hj hk
    rw [masonry_columns_getD allPhotos invalid cc j hj,
      masonry_columns_getD allPhotos invalid cc k hk,
      enum_filter_mod_length, enum_filter_mod_length,
      countP_range_mod cc hcc j hj, countP_range_mod cc hcc k hk]
    split_ifs <;> omega

/-- C7 witness: five photos, one invalid, two columns. -/
theorem C7_masonry_witness :
    (createOrderedMasonryColumns photosW [3] 2).length = 2 ∧
    (∀ j, j < 2 →
      (createOrderedMasonryColumns photosW [3] 2).getD j [] =
        (((validPhotosOf photosW [3]).enum.filter
          (fun ip => ip.1 % 2 == j)).map Prod.snd)) ∧
    ((createOrderedMasonryColumns photosW [3] 2).map List.length).sum =
      (validPhotosOf photosW [3]).length ∧
    (∀ j k, j < 2 → k < 2 →
      ((createOrderedMasonryColumns photosW [3] 2).getD j []).length ≤
        ((createOrderedMasonryColumns photosW [3] 2).getD k []).length + 1) :=
  C7_masonry photosW [3] 2 (by decide)

end Gallery
